import Mathlib

/-!
Verification development for the two-party co-signing coordination protocol
of the backgammon escrow client/server repository.

The definitions below are a shallow embedding of the TypeScript sources:

* `Transaction` and its operations mirror the `@solana/web3.js` legacy
  transaction API exactly as this repository exercises it
  (`partialSign`, `sign`, `serialize`, `Transaction.from`).  Serialization
  is modelled as the identity on the transaction value (the byte encoding
  itself plays no role in any property below); the `requireAllSignatures`
  flag is modelled by its documented meaning: serialization fails unless
  every required signer slot carries a signature.  Cryptographic signature
  verification is out of scope (`verifySignatures: false` everywhere in
  the sources).
* `WSMessage` mirrors the client's `WSMessage` interface
  (client/src/server/wsClient.ts) together with the finish-flow fields that
  GameScreen.tsx attaches to outgoing messages.
* `relayHandle` embeds the WebSocket message switch of the main relay
  server (the `wss.on("message", ...)` handler of the server entry file,
  src/unnamed/part_001), with the SQLite `games` table modelled as an
  association list.
* `simpleHandle` embeds the WebSocket handler of the secondary server
  (src/server/src/index.ts).
* `EngineState`, `messageHandler`, `confirmMove`, `confirmWin`,
  `handlePendingFinishSignature` and friends embed the per-participant
  coordination engine of client/src/components/GameScreen.tsx.  Asynchronous
  flows are inlined on their success path; calls to the ledger, to the
  WebSocket client and to the browser (`alert`) are reified as an
  `EngineEffect` list in source order.
-/

/-- One signer slot of a legacy web3.js transaction: the account key and the
optional signature bytes (modelled as an opaque string). -/
structure SigPair where
  pubkey : String
  signature : Option String
deriving DecidableEq, Repr

/-- Shallow model of a legacy `@solana/web3.js` `Transaction` as this
repository uses it.  `requiredSigners` are the instruction account keys
marked `isSigner: true` (for both `make_move` and `finish_game` these are
`[player1, player2]`); the game account and the system program are not
signers and play no role in any claim, so they are not carried. -/
structure Transaction where
  requiredSigners : List String
  recentBlockhash : Option String
  feePayer : Option String
  signatures : List SigPair
deriving DecidableEq, Repr

/-- The signature bytes produced by the keypair of `k`; opaque. -/
def sigOf (k : String) : String := "ed25519-sig-" ++ k

/-- The signer slots after web3.js `_compile`: if the current slots match the
message's required signers they are kept (preserving signatures), otherwise
they are reset to one empty slot per required signer. -/
def Transaction.compiledSlots (tx : Transaction) : List SigPair :=
  if tx.signatures.map SigPair.pubkey = tx.requiredSigners then tx.signatures
  else tx.requiredSigners.map (fun k => ⟨k, none⟩)

/-- web3.js `tx.partialSign(keypair)`: compile the slots, then add this
keypair's signature without disturbing the other slots. -/
def Transaction.partialSign (tx : Transaction) (k : String) : Transaction :=
  { tx with signatures :=
      tx.compiledSlots.map (fun s => if s.pubkey = k then ⟨k, some (sigOf k)⟩ else s) }

/-- web3.js `tx.sign(keypair)`: reset the signer slots to the given signers
only, compile (which restores one slot per required signer, all empty), and
sign this keypair's slot.  Every other required slot is left unsigned. -/
def Transaction.sign (tx : Transaction) (k : String) : Transaction :=
  Transaction.partialSign { tx with signatures := [⟨k, none⟩] } k

/-- The signature carried for account key `k`, if any. -/
def Transaction.signatureFor (tx : Transaction) (k : String) : Option String :=
  (tx.signatures.find? (fun s => s.pubkey = k)).bind SigPair.signature

/-- Whether every required signer slot carries a signature. -/
def Transaction.allRequiredSigned (tx : Transaction) : Bool :=
  tx.requiredSigners.all (fun k => (tx.signatureFor k).isSome)

/-- Number of signer slots that actually carry a signature. -/
def Transaction.signedCount (tx : Transaction) : Nat :=
  (tx.signatures.filter (fun s => s.signature.isSome)).length

/-- web3.js `tx.serialize({requireAllSignatures, verifySignatures: false})`,
with `requireAllSignatures` modelled by its documented meaning: fail unless
every required signer slot is signed.  The wire encoding is modelled as the
transaction value itself (`Transaction.from` of the wire bytes is the
identity), so `none` is the thrown serialization error. -/
def Transaction.serializeTx (tx : Transaction) (requireAll : Bool) : Option Transaction :=
  if requireAll && !tx.allRequiredSigned then none else some tx

/-- The protocol message exchanged over the WebSocket relay.  Fields mirror
the client's `WSMessage` interface plus the finish-flow fields
(`winnerPubkey`, and `transactionData` reused for finish transactions) that
GameScreen.tsx places on outgoing messages; absent JSON fields are `none`.
`transactionData` (a serialized transaction, `number[]` in the source) is
carried as the modelled wire form, i.e. a `Transaction`. -/
structure WSMessage where
  type : String
  gamePubkey : Option String := none
  playerPubkey : Option String := none
  moveIndex : Option Nat := none
  player : Option String := none
  boardPoints : Option (List Int) := none
  dice : Option (List Int) := none
  message : Option String := none
  error : Option String := none
  transactionData : Option Transaction := none
  newTurn : Option Nat := none
  winnerPubkey : Option String := none
deriving DecidableEq, Repr

/-- A connection's subscription binding, as stored in the main relay's
`clientSubscriptions` map. -/
structure Subscription where
  gamePubkey : String
  playerPubkey : String
deriving DecidableEq, Repr

/-- State of the main relay server: the open/closed flag of each live
connection (`readyState === OPEN`), the `clientSubscriptions` map, and the
`games` table of the SQLite database, as `(game_pubkey, (player1, player2))`
rows. -/
structure RelayState where
  conns : List (Nat × Bool)
  subs : List (Nat × Subscription)
  games : List (String × (String × String))
deriving DecidableEq, Repr

/-- Lookup of a connection's subscription (`clientSubscriptions.get`). -/
def subLookup (subs : List (Nat × Subscription)) (cid : Nat) : Option Subscription :=
  (subs.find? (fun p => p.1 = cid)).map Prod.snd

/-- `db.prepare("SELECT player1, player2 FROM games WHERE game_pubkey = ?").get(g)`;
a message without a `gamePubkey` field looks up `undefined` and finds no row. -/
def gameLookup (st : RelayState) (g : Option String) : Option (String × String) :=
  g.bind (fun gp => (st.games.find? (fun r => r.1 = gp)).map Prod.snd)

/-- The fan-out loop the relay repeats for every routed message kind: send the
message to every connection that is currently open, has a subscription, and
whose subscription's `gamePubkey` equals the message's game. -/
def broadcastToGame (st : RelayState) (g : String) (m : WSMessage) :
    List (Nat × WSMessage) :=
  st.conns.filterMap (fun c =>
    if c.2 = true then
      match subLookup st.subs c.1 with
      | some sub => if sub.gamePubkey = g then some (c.1, m) else none
      | none => none
    else none)

/-- Fan-out keyed by the message's optional `gamePubkey`: in the source the
comparison `subscription?.gamePubkey === message.gamePubkey` never holds when
the field is absent, so nothing is delivered. -/
def broadcastOpt (st : RelayState) (g : Option String) (m : WSMessage) :
    List (Nat × WSMessage) :=
  match g with
  | some gp => broadcastToGame st gp m
  | none => []

/-- An incoming WebSocket frame: either JSON that parsed to a message, or
unparseable data. -/
inductive RawIncoming where
  | parsed (m : WSMessage)
  | malformed
deriving DecidableEq, Repr

/-- An error reply sent to a single connection. -/
def errorReply (e : String) : WSMessage := { type := "error", error := some e }

/-- Replace (or create) the subscription binding of connection `cid`. -/
def setSub (subs : List (Nat × Subscription)) (cid : Nat) (sub : Subscription) :
    List (Nat × Subscription) :=
  (cid, sub) :: subs.filter (fun p => p.1 ≠ cid)

/-- The WebSocket message switch of the main relay server
(`wss.on("message", ...)` in the server entry file).  Returns the new relay
state and the list of `(connection, message)` sends it performs, in order.
The `dice_rolled` and `move` broadcasts of that file originate from HTTP
endpoints, not from this switch, and are not part of it.  Branches:

* malformed JSON: the catch block replies with an error to the originating
  connection only;
* `subscribe`: validates the two fields, binds the connection, acks;
* `chat`, `finish_request`, `game_finished`, `manual_finished`: fan out the
  message unchanged to every open connection bound to its game;
* `move_request`, `move_signed`, `finish_signed`: look the game up in the
  database, reply `Game not found` to the sender if absent, otherwise fan
  out the message unchanged (the computed `targetPlayer` is logged but not
  used for addressing);
* `turn_completed`: fan out a freshly built `turn_changed` message;
* any other type: log a warning, send nothing. -/
def relayHandle (st : RelayState) (sender : Nat) (raw : RawIncoming) :
    RelayState × List (Nat × WSMessage) :=
  match raw with
  | .malformed => (st, [(sender, errorReply "Failed to process message")])
  | .parsed m =>
    if m.type = "subscribe" then
      match m.gamePubkey, m.playerPubkey with
      | some g, some p =>
          ({ st with subs := setSub st.subs sender ⟨g, p⟩ },
           [(sender, { type := "subscribed", gamePubkey := some g, playerPubkey := some p })])
      | _, _ => (st, [(sender, errorReply "Missing gamePubkey or playerPubkey")])
    else if m.type = "chat" then
      (st, broadcastOpt st m.gamePubkey m)
    else if m.type = "move_request" then
      match gameLookup st m.gamePubkey with
      | none => (st, [(sender, errorReply "Game not found")])
      | some _ => (st, broadcastOpt st m.gamePubkey m)
    else if m.type = "move_signed" then
      match gameLookup st m.gamePubkey with
      | none => (st, [(sender, errorReply "Game not found")])
      | some _ => (st, broadcastOpt st m.gamePubkey m)
    else if m.type = "turn_completed" then
      (st, broadcastOpt st m.gamePubkey
        { type := "turn_changed", gamePubkey := m.gamePubkey, newTurn := m.newTurn })
    else if m.type = "finish_request" then
      (st, broadcastOpt st m.gamePubkey m)
    else if m.type = "finish_signed" then
      match gameLookup st m.gamePubkey with
      | none => (st, [(sender, errorReply "Game not found")])
      | some _ => (st, broadcastOpt st m.gamePubkey m)
    else if m.type = "game_finished" then
      (st, broadcastOpt st m.gamePubkey m)
    else if m.type = "manual_finished" then
      (st, broadcastOpt st m.gamePubkey m)
    else (st, [])

/-- One client record of the secondary server (src/server/src/index.ts):
its connection id, open flag, and the per-client `gamePubkey`/`playerPubkey`
fields set by `subscribe`. -/
structure SimpleClient where
  cid : Nat
  isOpen : Bool
  gamePubkey : Option String := none
  playerPubkey : Option String := none
deriving DecidableEq, Repr

/-- `broadcastToGame` of the secondary server: send to every client whose
`gamePubkey` equals the game and whose socket is open. -/
def simpleBroadcast (cls : List SimpleClient) (g : String) (m : WSMessage) :
    List (Nat × WSMessage) :=
  cls.filterMap (fun c =>
    if c.gamePubkey = some g ∧ c.isOpen = true then some (c.cid, m) else none)

/-- The WebSocket handler of the secondary server (src/server/src/index.ts,
`ws.on("message", ...)`).  `subscribe` stores the two fields on the sender's
client record and sends no acknowledgement; `chat` from a subscribed client
is re-broadcast as a server-built chat message; a parse error is only logged
to the console — no error reply is sent; everything else is ignored. -/
def simpleHandle (cls : List SimpleClient) (sender : Nat) (raw : RawIncoming) :
    List SimpleClient × List (Nat × WSMessage) :=
  match raw with
  | .malformed => (cls, [])
  | .parsed m =>
    if m.type = "subscribe" then
      (cls.map (fun c =>
        if c.cid = sender then
          { c with gamePubkey := m.gamePubkey, playerPubkey := m.playerPubkey }
        else c), [])
    else if m.type = "chat" then
      match (cls.find? (fun c => c.cid = sender)).bind SimpleClient.gamePubkey with
      | some g =>
          (cls, simpleBroadcast cls g
            { type := "chat",
              playerPubkey := (cls.find? (fun c => c.cid = sender)).bind SimpleClient.playerPubkey,
              message := m.message })
      | none => (cls, [])
    else (cls, [])

/-- The engine's in-flight move proposal (`pendingMove` state of
GameScreen.tsx).  `transactionData` is present when the pending move was
stored from an incoming `move_request` (the signer side) and absent when it
was stored by `confirmMove` (the proposer side). -/
structure PendingMove where
  boardPoints : List Int
  dice : Int × Int
  moveIndex : Nat
  transactionData : Option Transaction := none
deriving DecidableEq, Repr

/-- The engine's in-flight finish request (`pendingFinish` state of
GameScreen.tsx). -/
structure PendingFinish where
  winnerPubkey : String
  transactionData : Transaction
deriving DecidableEq, Repr

/-- The local state of one per-participant coordination engine: the React
state of GameScreen.tsx plus the read-only ambient data the handlers fetch
(`myPubkey` from the wallet, `gameInfo` from the metadata server,
`chainPlayer1`/`chainPlayer2` from the ledger-observed game account, and
`serverMoves`, the length of the server's move log used to derive the next
`moveIndex`). -/
structure EngineState where
  gamePubkey : String
  myPubkey : String
  gameInfo : Option (String × String) := none
  chainPlayer1 : String := ""
  chainPlayer2 : String := ""
  serverMoves : Nat := 0
  boardPoints : List Int := []
  dice : Option (Int × Int) := none
  currentTurn : Nat := 1
  isMyTurn : Bool := false
  isRolling : Bool := false
  isProcessingMove : Bool := false
  isProcessingFinish : Bool := false
  selectedCell : Option Nat := none
  pendingMove : Option PendingMove := none
  pendingFinish : Option PendingFinish := none
  winnerBanner : Option String := none
deriving DecidableEq, Repr

/-- An observable action of the engine, in source order:

* `submitTx`: `connection.sendRawTransaction` / `connection.sendTransaction`
  — a transaction handed to the Ledger Authority;
* `wsCall`: an invocation `wsClient.<method>(...)`; when the call passes or
  (for `sendTurnCompleted`) the method builds a `WSMessage`, it is carried;
  for `sendGameFinished`, which passes two plain strings, the arguments are
  carried as a `game_finished`-shaped message;
* `alert`: a browser alert shown to the user;
* `logMoveHttp`: the fire-and-forget `POST /api/games/:g/move`. -/
inductive EngineEffect where
  | submitTx (tx : Transaction)
  | wsCall (method : String) (msg : WSMessage)
  | alert (text : String)
  | logMoveHttp (moveIndex : Nat)
deriving DecidableEq, Repr

/-- `submitSignedTransactionToBlockchain(signedTx, finalBoardPoints,
finalDice)` of GameScreen.tsx, success path inlined: serialize with
`requireAllSignatures: true`, check that at least two signer slots exist,
send the raw transaction and await confirmation, update the local board and
dice, clear the pending move and selection, and tell the server the turn is
complete with the toggled turn number.  A serialization error or a failed
signature-count check lands in the catch block, which alerts and rethrows
(the caller only logs), leaving the state unchanged.  Note the function
never writes `currentTurn` or `isMyTurn`. -/
def submitSignedTransactionToBlockchain (s : EngineState) (signedTx : Transaction)
    (finalBoardPoints : List Int) (finalDice : Int × Int) :
    EngineState × List EngineEffect :=
  match signedTx.serializeTx true with
  | none => (s, [.alert "Failed to submit move to blockchain. Please try again."])
  | some serializedTx =>
    if signedTx.signatures.length < 2 then
      (s, [.alert "Failed to submit move to blockchain. Please try again."])
    else
      ({ s with boardPoints := finalBoardPoints, dice := some finalDice,
                pendingMove := none, selectedCell := none },
       [.submitTx serializedTx,
        .wsCall "sendTurnCompleted"
          { type := "turn_completed", gamePubkey := some s.gamePubkey,
            playerPubkey := some s.myPubkey,
            newTurn := some (if s.currentTurn = 1 then 2 else 1) }])

/-- `submitFinishTransaction(signedTx, winnerPubkey)` of GameScreen.tsx,
success path inlined: serialize with `requireAllSignatures: true`, send,
await confirmation, notify the server via `wsClient.sendGameFinished`, show
the winner banner and drop the turn.  A serialization error propagates to
the caller's catch, which only logs. -/
def submitFinishTransaction (s : EngineState) (signedTx : Transaction)
    (winnerPubkey : String) : EngineState × List EngineEffect :=
  match signedTx.serializeTx true with
  | none => (s, [])
  | some serializedTx =>
      ({ s with winnerBanner := some winnerPubkey, isMyTurn := false },
       [.submitTx serializedTx,
        .wsCall "sendGameFinished"
          { type := "game_finished", gamePubkey := some s.gamePubkey,
            winnerPubkey := some winnerPubkey }])

/-- `submitMoveToBlockchain(finalBoardPoints, finalDice)` of GameScreen.tsx —
the legacy fallback used by the `move_signed` branch when the message carries
no transaction: it submits nothing and instead rewrites the local state,
toggling `currentTurn` and `isMyTurn` directly. -/
def submitMoveToBlockchain (s : EngineState) (finalBoardPoints : List Int)
    (finalDice : Int × Int) : EngineState × List EngineEffect :=
  ({ s with boardPoints := finalBoardPoints, dice := some finalDice,
            currentTurn := if s.currentTurn = 1 then 2 else 1,
            isMyTurn := !s.isMyTurn,
            pendingMove := none, selectedCell := none }, [])

/-- Element `i` of a TS `number[]`, with the out-of-range `undefined`
collapsed to `0` (the concrete value never matters to a claim). -/
def diceAt (d : List Int) (i : Nat) : Int := d.getD i 0

/-- The `move_signed` branch of the GameScreen message handler.  First the
signer/proposer split on the sender identity: a message whose `playerPubkey`
is this engine's own pubkey is the echo of a signature this engine produced,
and is dropped.  Otherwise, with transaction, board and dice present, the
transaction is deserialized, rejected (with an alert) if it has fewer than
two signer slots, given a fee payer from the ledger-observed `player1` if it
has none, and submitted.  Without a transaction but with a pending move, the
legacy fallback runs.  Note there is no check of `moveIndex` against
anything, and no `gamePubkey` filter on this branch. -/
def handleMoveSigned (s : EngineState) (m : WSMessage) :
    EngineState × List EngineEffect :=
  if m.playerPubkey = some s.myPubkey then (s, [])
  else
    match m.transactionData, m.boardPoints, m.dice with
    | some txd, some bp, some d =>
        let tx := txd
        if tx.signatures.length < 2 then
          (s, [.alert "Transaction is missing signatures. Please try again."])
        else
          let tx := if tx.feePayer = none then { tx with feePayer := some s.chainPlayer1 } else tx
          submitSignedTransactionToBlockchain s tx bp (diceAt d 0, diceAt d 1)
    | _, _, _ =>
        match s.pendingMove with
        | some pm => submitMoveToBlockchain s pm.boardPoints pm.dice
        | none => (s, [])

/-- The `turn_changed` branch: adopt the announced turn number, derive
`isMyTurn` from it when `gameInfo` is loaded, and reset the per-turn
ephemeral state (dice, selection, pending move, rolling and processing
flags). -/
def handleTurnChanged (s : EngineState) (m : WSMessage) :
    EngineState × List EngineEffect :=
  match m.newTurn with
  | some nt =>
      ({ s with currentTurn := nt,
                isMyTurn :=
                  match s.gameInfo with
                  | some gi =>
                      (nt == 1 && s.myPubkey == gi.1) || (nt == 2 && !(s.myPubkey == gi.1))
                  | none => s.isMyTurn,
                dice := none, selectedCell := none, pendingMove := none,
                isRolling := false, isProcessingMove := false }, [])
  | none => (s, [])

/-- The `finish_signed` branch: the signer drops its own echo; the proposer
deserializes and submits the fully-signed finish transaction. -/
def handleFinishSigned (s : EngineState) (m : WSMessage) :
    EngineState × List EngineEffect :=
  if m.playerPubkey = some s.myPubkey then (s, [])
  else
    match m.transactionData, m.winnerPubkey with
    | some txd, some w => submitFinishTransaction s txd w
    | _, _ => (s, [])

/-- The WebSocket message handler GameScreen registers on the client
(`messageHandler` inside the subscription effect): the if/else-if chain over
`message.type`, each branch embedded as above.  Branches `move_request`,
`move_signed` and `turn_changed` have no `gamePubkey` filter in the source;
the others are filtered on the current game. -/
def messageHandler (s : EngineState) (m : WSMessage) :
    EngineState × List EngineEffect :=
  if m.type = "dice_rolled" ∧ m.gamePubkey = some s.gamePubkey then
    match m.dice with
    | some d => if d.length = 2 then ({ s with dice := some (diceAt d 0, diceAt d 1) }, []) else (s, [])
    | none => (s, [])
  else if m.type = "move" ∧ m.gamePubkey = some s.gamePubkey then
    if m.player = some s.myPubkey then (s, [])
    else
      match m.boardPoints with
      | some bp => ({ s with boardPoints := bp }, [])
      | none => (s, [])
  else if m.type = "move_request" then
    match m.boardPoints, m.dice, m.transactionData with
    | some bp, some d, some txd =>
        let pm : PendingMove :=
          { boardPoints := bp, dice := (diceAt d 0, diceAt d 1),
            moveIndex := m.moveIndex.getD 0, transactionData := some txd }
        ({ s with pendingMove := some pm }, [])
    | _, _, _ => (s, [])
  else if m.type = "move_signed" then
    handleMoveSigned s m
  else if m.type = "turn_changed" then
    handleTurnChanged s m
  else if m.type = "finish_request" ∧ m.gamePubkey = some s.gamePubkey then
    match m.transactionData, m.winnerPubkey with
    | some txd, some w =>
        ({ s with pendingFinish := some { winnerPubkey := w, transactionData := txd } }, [])
    | _, _ => (s, [])
  else if m.type = "finish_signed" ∧ m.gamePubkey = some s.gamePubkey then
    handleFinishSigned s m
  else if m.type = "game_finished" ∧ m.gamePubkey = some s.gamePubkey then
    ({ s with winnerBanner := some (m.winnerPubkey.getD "Unknown"), isMyTurn := false }, [])
  else (s, [])

/-- `createMoveTransaction(newBoardPoints, newDice)` of GameScreen.tsx: an
unsigned `make_move` transaction whose required signers are the
ledger-observed `player1` and `player2`, with a fresh finalized blockhash
and `player1` as fee payer.  The instruction data (discriminator, clamped
board bytes, dice bytes) is not consulted by any property and is elided. -/
def createMoveTransaction (s : EngineState) : Transaction :=
  { requiredSigners := [s.chainPlayer1, s.chainPlayer2],
    recentBlockhash := some "finalized-blockhash",
    feePayer := some s.chainPlayer1,
    signatures := [] }

/-- `createFinishTransaction(winnerPubkey)` of GameScreen.tsx: an unsigned
`finish_game` transaction with the same two required signers, a fresh
blockhash and the declared winner as fee payer. -/
def createFinishTransaction (s : EngineState) (winnerPubkey : String) : Transaction :=
  { requiredSigners := [s.chainPlayer1, s.chainPlayer2],
    recentBlockhash := some "finalized-blockhash",
    feePayer := some winnerPubkey,
    signatures := [] }

/-- `confirmMove` of GameScreen.tsx.  Entry guard: return immediately unless
it is this engine's turn, dice are rolled, a cell is selected and no other
`confirmMove` is still processing — the guard does not consult
`pendingMove`.  Then: apply the one-cell board edit, derive the next
`moveIndex` from the server-side move log, build and partially sign the move
transaction, serialize it with `requireAllSignatures: false`, send a
`move_request` through the relay, store the pending move (overwriting any
previous one), and log the move off-chain.  The `finally` block clears the
selection and the processing flag. -/
def confirmMove (s : EngineState) : EngineState × List EngineEffect :=
  if ¬s.isMyTurn ∨ s.dice = none ∨ s.selectedCell = none ∨ s.isProcessingMove then
    (s, [])
  else
    match s.dice, s.selectedCell with
    | some d, some cell =>
        let v := s.boardPoints.getD cell 0
        let change : Int := if v ≥ 0 then -1 else 1
        let newBoardPoints := s.boardPoints.set cell (v + change)
        let moveIndex := s.serverMoves + 1
        let tx := (createMoveTransaction s).partialSign s.myPubkey
        let serializedTx := (tx.serializeTx false).getD tx
        let moveRequest : WSMessage :=
          { type := "move_request", gamePubkey := some s.gamePubkey,
            playerPubkey := some s.myPubkey, moveIndex := some moveIndex,
            boardPoints := some newBoardPoints, dice := some [d.1, d.2],
            transactionData := some serializedTx }
        let pm : PendingMove :=
          { boardPoints := newBoardPoints, dice := d, moveIndex := moveIndex,
            transactionData := none }
        ({ s with pendingMove := some pm, selectedCell := none,
                  isProcessingMove := false },
         [.wsCall "sendMoveRequest" moveRequest, .logMoveHttp moveIndex])
    | _, _ => (s, [])

/-- `confirmWin` of GameScreen.tsx (the claim-victory button): guarded on it
being this engine's turn and no finish already processing; builds the finish
transaction naming this engine as winner, partially signs it, serializes it
without requiring the counterpart's signature, sends a `finish_request`, and
stores the pending finish. -/
def confirmWin (s : EngineState) : EngineState × List EngineEffect :=
  if ¬s.isMyTurn ∨ s.isProcessingFinish then (s, [])
  else
    let tx := (createFinishTransaction s s.myPubkey).partialSign s.myPubkey
    let serializedTx := (tx.serializeTx false).getD tx
    let finishRequest : WSMessage :=
      { type := "finish_request", gamePubkey := some s.gamePubkey,
        playerPubkey := some s.myPubkey, transactionData := some serializedTx,
        winnerPubkey := some s.myPubkey }
    let pf : PendingFinish :=
      { winnerPubkey := s.myPubkey, transactionData := serializedTx }
    ({ s with pendingFinish := some pf, isProcessingFinish := false },
     [.wsCall "sendFinishRequest" finishRequest])

/-- The blockhash recovery both signing handlers perform: if the received
transaction carries no `recentBlockhash`, fetch a fresh one and set it;
otherwise leave the transaction untouched. -/
def refreshBlockhash (tx : Transaction) : Transaction :=
  if tx.recentBlockhash = none then { tx with recentBlockhash := some "refreshed-blockhash" }
  else tx

/-- `handlePendingMoveSignature` of GameScreen.tsx (the signer pressing
"Sign & Approve Move"): deserialize the stored transaction, refresh the
blockhash if it is absent, add this engine's signature with `partialSign`,
serialize requiring all signatures, send the result back as `move_signed`
and clear the pending move.  A serialization failure lands in the catch
block (alert), leaving the state unchanged. -/
def handlePendingMoveSignature (s : EngineState) : EngineState × List EngineEffect :=
  match s.pendingMove with
  | none => (s, [])
  | some pm =>
    match pm.transactionData with
    | none => (s, [])
    | some txd =>
        let tx := (refreshBlockhash txd).partialSign s.myPubkey
        match tx.serializeTx true with
        | none => (s, [.alert "Failed to sign move. Please try again."])
        | some serializedTx =>
            let signedMove : WSMessage :=
              { type := "move_signed", gamePubkey := some s.gamePubkey,
                playerPubkey := some s.myPubkey, moveIndex := some pm.moveIndex,
                boardPoints := some pm.boardPoints, dice := some [pm.dice.1, pm.dice.2],
                transactionData := some serializedTx }
            ({ s with pendingMove := none }, [.wsCall "sendMoveSigned" signedMove])

/-- `handlePendingFinishSignature` of GameScreen.tsx: deserialize the stored
finish transaction, refresh the blockhash if absent, counter-sign with
`partialSign`, serialize requiring all signatures, send it back as
`finish_signed` and clear the pending finish.  A serialization failure lands
in the catch block (alert), leaving the state unchanged. -/
def handlePendingFinishSignature (s : EngineState) : EngineState × List EngineEffect :=
  match s.pendingFinish with
  | none => (s, [])
  | some pf =>
      let tx := (refreshBlockhash pf.transactionData).partialSign s.myPubkey
      match tx.serializeTx true with
      | none => (s, [.alert "Failed to sign finish. Please try again."])
      | some serializedTx =>
          let signedMessage : WSMessage :=
            { type := "finish_signed", gamePubkey := some s.gamePubkey,
              playerPubkey := some s.myPubkey, transactionData := some serializedTx,
              winnerPubkey := some pf.winnerPubkey }
          ({ s with pendingFinish := none }, [.wsCall "sendFinishSigned" signedMessage])

/-- The auto-signing React effect of GameScreen.tsx: whenever the engine
holds a pending finish while it is not its turn, `handlePendingFinishSignature`
runs — with no user confirmation involved. -/
def autoSignPendingFinish (s : EngineState) : EngineState × List EngineEffect :=
  if !s.isMyTurn ∧ s.pendingFinish ≠ none then handlePendingFinishSignature s
  else (s, [])

/-- `makeMove(gamePubkey, newBoardPoints, newDice)` of
client/src/solana/gameService.ts, the direct on-chain submission path: after
validating the board length, it builds the `make_move` transaction (both
players required signers; no blockhash or fee payer is ever set on it),
signs it with `tx.sign(myKeypair)` — the calling player's keypair only —
and hands it to `connection.sendTransaction`.  The code comment asserts the
transaction is already fully signed by both players; no check enforces
that.  Returns the thrown validation error or the effect list of the
submission. -/
def gameServiceMakeMove (chainPlayer1 chainPlayer2 myKeypair : String)
    (newBoardPoints : List Int) : Except String (List EngineEffect) :=
  if newBoardPoints.length ≠ 24 then
    Except.error "Invalid boardPoints length"
  else
    let tx : Transaction :=
      { requiredSigners := [chainPlayer1, chainPlayer2],
        recentBlockhash := none, feePayer := none, signatures := [] }
    let tx := tx.sign myKeypair
    Except.ok [.submitTx tx]

/-- The names of the methods defined on the `WebSocketClient` class of
client/src/server/wsClient.ts — the complete list, in declaration order. -/
def webSocketClientMethods : List String :=
  ["connect", "attemptReconnect", "subscribe", "sendChat", "onMessage",
   "offMessage", "sendMoveRequest", "sendMoveSigned", "sendTurnCompleted",
   "disconnect", "isConnected"]

/-- The string-literal union of the `type` field of the `WSMessage`
interface in client/src/server/wsClient.ts. -/
def wsMessageTypeUnion : List String :=
  ["subscribe", "move", "chat", "error", "move_request", "move_signed",
   "dice_rolled", "turn_completed", "turn_changed"]

/-- The `wsClient` methods the finish flow of GameScreen.tsx invokes:
`sendFinishRequest` in `confirmWin`, `sendFinishSigned` in
`handlePendingFinishSignature`, and `sendGameFinished` in
`submitFinishTransaction`. -/
def finishFlowInvokedMethods : List String :=
  ["sendFinishRequest", "sendFinishSigned", "sendGameFinished"]

/-- Number of ledger submissions in an effect list. -/
def countSubmits (effs : List EngineEffect) : Nat :=
  (effs.filter (fun e => match e with | .submitTx _ => true | _ => false)).length

/-- Whether an effect list invokes `wsClient.sendMoveRequest`. -/
def sendsMoveRequest (effs : List EngineEffect) : Bool :=
  effs.any (fun e => match e with | .wsCall "sendMoveRequest" _ => true | _ => false)

/-- Concrete fixture: a move transaction of session game `G` between players
`P1` and `P2`, signed by both (the wire form a signer sends back). -/
def txBothSigned : Transaction :=
  { requiredSigners := ["P1", "P2"], recentBlockhash := some "finalized-blockhash",
    feePayer := some "P1",
    signatures := [⟨"P1", some (sigOf "P1")⟩, ⟨"P2", some (sigOf "P2")⟩] }

/-- Concrete fixture: a finish transaction carrying only the proposer `P1`'s
signature (the wire form a `finish_request` carries). -/
def txP1SignedOnly : Transaction :=
  { requiredSigners := ["P1", "P2"], recentBlockhash := some "finalized-blockhash",
    feePayer := some "P1",
    signatures := [⟨"P1", some (sigOf "P1")⟩, ⟨"P2", none⟩] }

/-- The transaction `gameService.makeMove` hands to
`connection.sendTransaction` when `P1` calls it: both players are required
signers, but only `P1`'s slot is signed, and neither a blockhash nor a fee
payer was ever set. -/
def makeMoveSubmittedTx : Transaction :=
  { requiredSigners := ["P1", "P2"], recentBlockhash := none, feePayer := none,
    signatures := [⟨"P1", some (sigOf "P1")⟩, ⟨"P2", none⟩] }

/-- Concrete fixture: proposer `P1`'s engine in game `G`, its turn, dice
rolled, a cell selected, and a move proposal for sequence number 1 already
outstanding (sent, not yet counter-signed). -/
def engineP1 : EngineState :=
  { gamePubkey := "G", myPubkey := "P1", gameInfo := some ("P1", "P2"),
    chainPlayer1 := "P1", chainPlayer2 := "P2", serverMoves := 0,
    boardPoints := [0, 0], dice := some (3, 5), currentTurn := 1,
    isMyTurn := true, selectedCell := some 0,
    pendingMove := some { boardPoints := [-1, 0], dice := (3, 5), moveIndex := 1 } }

/-- Concrete fixture: the fully-signed `move_signed` reply from `P2` for
sequence number 1. -/
def msgMoveSigned : WSMessage :=
  { type := "move_signed", gamePubkey := some "G", playerPubkey := some "P2",
    moveIndex := some 1, boardPoints := some [-1, 0], dice := some [3, 5],
    transactionData := some txBothSigned }

/-- Concrete fixture: the `turn_changed` announcement handing the turn to
player 2. -/
def msgTurnChanged : WSMessage :=
  { type := "turn_changed", gamePubkey := some "G", newTurn := some 2 }

/-- Concrete fixture: a `move_signed` message from `P2` that carries no
transaction bytes — the shape that steers the handler into the legacy
fallback. -/
def msgMoveSignedNoTx : WSMessage :=
  { type := "move_signed", gamePubkey := some "G", playerPubkey := some "P2",
    moveIndex := some 1, boardPoints := some [-1, 0], dice := some [3, 5] }

/-- Concrete fixture: signer `P2`'s engine in game `G`, not its turn, holding
the pending finish request in which `P1` claims victory. -/
def engineP2Signer : EngineState :=
  { gamePubkey := "G", myPubkey := "P2", gameInfo := some ("P1", "P2"),
    chainPlayer1 := "P1", chainPlayer2 := "P2",
    boardPoints := [0, 0], currentTurn := 1, isMyTurn := false,
    pendingFinish := some { winnerPubkey := "P1", transactionData := txP1SignedOnly } }

/-- Concrete fixture: the echo of `P2`'s own `move_signed`, as the relay
fans it back to `P2`. -/
def msgEchoToP2 : WSMessage :=
  { type := "move_signed", gamePubkey := some "G", playerPubkey := some "P2",
    moveIndex := some 1, boardPoints := some [-1, 0], dice := some [3, 5],
    transactionData := some txBothSigned }

/-- Concrete fixture: relay with two sessions: connections 0 and 1 bound to
game `G`, connection 2 bound to game `H`, connection 3 bound to `G` but
closed, and both games registered. -/
def relayTwoSessions : RelayState :=
  { conns := [(0, true), (1, true), (2, true), (3, false)],
    subs := [(0, ⟨"G", "P1"⟩), (1, ⟨"G", "P2"⟩), (2, ⟨"H", "Q1"⟩), (3, ⟨"G", "P2"⟩)],
    games := [("G", ("P1", "P2")), ("H", ("Q1", "Q2"))] }

/-- Concrete fixture: relay in which the sending connection 0 has never
subscribed, while connection 1 is bound to game `G`. -/
def relayUnsubscribedSender : RelayState :=
  { conns := [(0, true), (1, true)],
    subs := [(1, ⟨"G", "P2"⟩)],
    games := [("G", ("P1", "P2"))] }

/-- Concrete fixture: a `move_request` for game `G` from `P1`. -/
def msgMoveRequestG : WSMessage :=
  { type := "move_request", gamePubkey := some "G", playerPubkey := some "P1",
    moveIndex := some 1, boardPoints := some [-1, 0], dice := some [3, 5],
    transactionData := some txP1SignedOnly }

/-- Concrete fixture: the client table of the secondary server, both players
subscribed to game `G`. -/
def simpleClientsG : List SimpleClient :=
  [{ cid := 0, isOpen := true, gamePubkey := some "G", playerPubkey := some "P1" },
   { cid := 1, isOpen := true, gamePubkey := some "G", playerPubkey := some "P2" }]

/-- Concrete fixture: `engineP1` with a different pending move, board, dice
and selection — used to show the `move_signed` effects ignore all of them. -/
def engineP1Variant : EngineState :=
  { engineP1 with
    pendingMove := none
    dice := none
    boardPoints := [7, 7]
    selectedCell := none }

/-- Concrete fixture: a `move_signed` naming a session absent from the
`games` table. -/
def msgMoveSignedUnknown : WSMessage :=
  { type := "move_signed", gamePubkey := some "Z", playerPubkey := some "P1",
    transactionData := some txBothSigned }

theorem mem_broadcastToGame {st : RelayState} {g : String} {m : WSMessage}
    {cid : Nat} {m' : WSMessage} :
    (cid, m') ∈ broadcastToGame st g m ↔
      m' = m ∧ (cid, true) ∈ st.conns ∧
        ∃ sub, subLookup st.subs cid = some sub ∧ sub.gamePubkey = g := by
  unfold broadcastToGame
  rw [List.mem_filterMap]
  constructor
  · rintro ⟨⟨c1, c2⟩, hc, hf⟩
    simp only at hf
    split at hf
    · rename_i h2
      split at hf
      · rename_i sub hsub
        split at hf
        · rename_i hg
          injection hf with hf1
          injection hf1 with hc1 hm
          subst hc1; subst hm; subst h2
          exact ⟨rfl, hc, sub, hsub, hg⟩
        · exact absurd hf (by simp)
      · exact absurd hf (by simp)
    · exact absurd hf (by simp)
  · rintro ⟨rfl, hconn, sub, hsub, hg⟩
    exact ⟨(cid, true), hconn, by simp [hsub, hg]⟩

/-- C1.  The claim states that every move or finish transaction submitted to
the Ledger Authority carries signatures from both session participants and
that no code path submits a transaction signed by only one participant.  The
code contradicts it (and its own comment, which asserts the transaction is
already fully signed by both players): `gameService.makeMove`, called by
participant `P1` of a session between `P1` and `P2`, signs the two-signer
`make_move` transaction with `P1`'s keypair alone and hands it to
`connection.sendTransaction` — a single-signature submission path with no
check that `P2`'s slot is signed. -/
theorem claim_C1_makeMove_submits_single_signature :
    gameServiceMakeMove "P1" "P2" "P1" (List.replicate 24 0)
      = Except.ok [EngineEffect.submitTx makeMoveSubmittedTx] ∧
    makeMoveSubmittedTx.requiredSigners = ["P1", "P2"] ∧
    makeMoveSubmittedTx.signedCount = 1 ∧
    makeMoveSubmittedTx.signatureFor "P2" = none ∧
    makeMoveSubmittedTx.allRequiredSigned = false := by
  refine ⟨rfl, rfl, by decide, rfl, by decide⟩

/-- C7.  The claim states that `sendFinishRequest`, `sendFinishSigned` and
`sendGameFinished` are defined on the `WebSocketClient` class so the finish
co-signing flow can run.  In fact none of the three methods exists on the
class (its complete method list is `webSocketClientMethods`), and the
`WSMessage` type union does not even contain the `finish_request`,
`finish_signed` or `game_finished` message kinds the flow constructs — the
engine's finish flow calls methods that are absent. -/
theorem claim_C7_finish_methods_missing :
    "sendFinishRequest" ∉ webSocketClientMethods ∧
    "sendFinishSigned" ∉ webSocketClientMethods ∧
    "sendGameFinished" ∉ webSocketClientMethods ∧
    "sendMoveRequest" ∈ webSocketClientMethods ∧
    "sendMoveSigned" ∈ webSocketClientMethods ∧
    "finish_request" ∉ wsMessageTypeUnion ∧
    "finish_signed" ∉ wsMessageTypeUnion ∧
    "game_finished" ∉ wsMessageTypeUnion := by
  decide

theorem submit_mem_handleMoveSigned {s : EngineState} {m : WSMessage} {tx : Transaction}
    (h : EngineEffect.submitTx tx ∈ (handleMoveSigned s m).2) :
    m.playerPubkey ≠ some s.myPubkey := by
  by_cases hp : m.playerPubkey = some s.myPubkey
  · simp [handleMoveSigned, hp] at h
  · exact hp

theorem submit_mem_handleFinishSigned {s : EngineState} {m : WSMessage} {tx : Transaction}
    (h : EngineEffect.submitTx tx ∈ (handleFinishSigned s m).2) :
    m.playerPubkey ≠ some s.myPubkey := by
  by_cases hp : m.playerPubkey = some s.myPubkey
  · simp [handleFinishSigned, hp] at h
  · exact hp

theorem handleTurnChanged_effects (s : EngineState) (m : WSMessage) :
    (handleTurnChanged s m).2 = [] := by
  unfold handleTurnChanged
  rcases m.newTurn with _ | nt <;> rfl

theorem messageHandler_effects (s : EngineState) (m : WSMessage) :
    (messageHandler s m).2 = [] ∨
    (m.type = "move_signed" ∧ (messageHandler s m).2 = (handleMoveSigned s m).2) ∨
    (m.type = "finish_signed" ∧ (messageHandler s m).2 = (handleFinishSigned s m).2) := by
  unfold messageHandler
  split_ifs <;>
    first
      | (left; rfl)
      | (left; exact handleTurnChanged_effects s m)
      | (left; split <;> first | rfl | (split <;> rfl))
      | (exact Or.inr (Or.inl ⟨by assumption, rfl⟩))
      | (rename_i h; exact Or.inr (Or.inr ⟨h.1, rfl⟩))

/-- C2.  For every fully-signed response (`move_signed` or `finish_signed`)
whose sender identity (`playerPubkey` carried in the message) equals the
receiving engine's own pubkey, the engine returns without any state change
or effect — the signer never consumes the fully-signed response it
produced; and every ledger submission the message handler ever performs
originates from a `move_signed` or `finish_signed` message whose sender is
not this engine, so only the original proposer submits the fully-authorized
transaction. -/
theorem claim_C2_signer_ignored_only_proposer_submits (s : EngineState) (m : WSMessage) :
    (m.type = "move_signed" → m.playerPubkey = some s.myPubkey →
      messageHandler s m = (s, [])) ∧
    (m.type = "finish_signed" → m.playerPubkey = some s.myPubkey →
      messageHandler s m = (s, [])) ∧
    (∀ tx, EngineEffect.submitTx tx ∈ (messageHandler s m).2 →
      m.playerPubkey ≠ some s.myPubkey ∧
      (m.type = "move_signed" ∨ m.type = "finish_signed")) := by
  refine ⟨?_, ?_, ?_⟩
  · intro ht hp
    simp [messageHandler, ht, handleMoveSigned, hp]
  · intro ht hp
    by_cases hg : m.gamePubkey = some s.gamePubkey
    · simp [messageHandler, ht, hg, handleFinishSigned, hp]
    · simp [messageHandler, ht, hg]
  · intro tx htx
    rcases messageHandler_effects s m with he | ⟨ht, he⟩ | ⟨ht, he⟩
    · rw [he] at htx; simp at htx
    · rw [he] at htx; exact ⟨submit_mem_handleMoveSigned htx, Or.inl ht⟩
    · rw [he] at htx; exact ⟨submit_mem_handleFinishSigned htx, Or.inr ht⟩

/-- C2 witness: signer `P2` receives the relay echo of its own fully-signed
`move_signed`; the handler drops it with no state change and no effect. -/
theorem claim_C2_witness :
    messageHandler engineP2Signer msgEchoToP2 = (engineP2Signer, []) :=
  (claim_C2_signer_ignored_only_proposer_submits engineP2Signer msgEchoToP2).1 rfl rfl

/-- C3.  Every `move_request` or `move_signed` message the relay routes for a
registered session is delivered unchanged to exactly the currently-open
connections whose subscription names that session — including the sender's
own connection when it is so bound — and to no connection bound to any other
session; the relay state is untouched. -/
theorem claim_C3_relay_fanout (st : RelayState) (c : Nat) (m : WSMessage)
    (g : String) (pl : String × String)
    (htype : m.type = "move_request" ∨ m.type = "move_signed")
    (hg : m.gamePubkey = some g)
    (hlk : gameLookup st (some g) = some pl) :
    relayHandle st c (.parsed m) = (st, broadcastToGame st g m) ∧
    (∀ cid m', (cid, m') ∈ broadcastToGame st g m ↔
      (m' = m ∧ (cid, true) ∈ st.conns ∧
        ∃ sub, subLookup st.subs cid = some sub ∧ sub.gamePubkey = g)) ∧
    (∀ cid sub, subLookup st.subs cid = some sub → sub.gamePubkey ≠ g →
      ∀ m', (cid, m') ∉ broadcastToGame st g m) := by
  refine ⟨?_, fun cid m' => mem_broadcastToGame, ?_⟩
  · rcases htype with ht | ht <;>
      simp [relayHandle, ht, hg, hlk, broadcastOpt]
  · intro cid sub hsub hne m' hmem
    rcases mem_broadcastToGame.1 hmem with ⟨_, _, sub', hsub', hg'⟩
    rw [hsub] at hsub'
    cases hsub'
    exact hne hg'

/-- C3 witness: in a relay with connections 0 and 1 open and bound to game
`G`, connection 2 bound to game `H` and connection 3 bound to `G` but
closed, a `move_request` for `G` from connection 0 is handed to exactly
connections 0 (the sender itself) and 1, unchanged, and never to the
`H`-bound connection 2. -/
theorem claim_C3_witness :
    relayHandle relayTwoSessions 0 (.parsed msgMoveRequestG)
      = (relayTwoSessions, broadcastToGame relayTwoSessions "G" msgMoveRequestG) ∧
    broadcastToGame relayTwoSessions "G" msgMoveRequestG
      = [(0, msgMoveRequestG), (1, msgMoveRequestG)] :=
  ⟨(claim_C3_relay_fanout relayTwoSessions 0 msgMoveRequestG "G" ("P1", "P2")
      (Or.inl rfl) rfl rfl).1, by decide⟩

/-- C4 counterexample.  The claim states that while a pending move proposal
is outstanding, an attempt to create a new proposal via `confirmMove` is
rejected locally before any message reaches the Relay.  In the concrete
state `engineP1` — proposal for sequence number 1 outstanding, this engine's
turn, dice rolled, a cell selected, nothing processing — `confirmMove`
passes its entry guard (which never consults `pendingMove`) and sends a new
`move_request` to the Relay. -/
theorem claim_C4_counterexample :
    engineP1.pendingMove ≠ none ∧
    sendsMoveRequest (confirmMove engineP1).2 = true ∧
    (confirmMove engineP1).2 ≠ [] := by
  refine ⟨by decide, by decide, by decide⟩

/-- C4 amended.  The engine stores at most one pending move (a single
option-valued slot, overwritten by each new proposal), and `confirmMove`
rejects a proposal locally exactly when it is not this engine's turn, no
dice are rolled, no cell is selected, or another `confirmMove` is still
processing; an outstanding pending move does not block a new proposal — the
new `move_request` is sent to the Relay and the pending slot is
overwritten. -/
theorem claim_C4_amended (s : EngineState) :
    ((¬s.isMyTurn ∨ s.dice = none ∨ s.selectedCell = none ∨ s.isProcessingMove) →
      confirmMove s = (s, [])) ∧
    (∀ d cell, s.isMyTurn = true → s.dice = some d → s.selectedCell = some cell →
      s.isProcessingMove = false →
      sendsMoveRequest (confirmMove s).2 = true ∧
      (confirmMove s).1.pendingMove =
        some { boardPoints :=
                 s.boardPoints.set cell (s.boardPoints.getD cell 0 +
                   (if s.boardPoints.getD cell 0 ≥ 0 then -1 else 1)),
               dice := d, moveIndex := s.serverMoves + 1, transactionData := none } ∧
      (confirmMove s).1.selectedCell = none) := by
  constructor
  · intro h
    unfold confirmMove
    rw [if_pos h]
  · intro d cell h1 h2 h3 h4
    have hguard : ¬(¬s.isMyTurn ∨ s.dice = none ∨ s.selectedCell = none ∨ s.isProcessingMove) := by
      simp [h1, h2, h3, h4]
    simp [confirmMove, hguard, h1, h2, h3, h4, sendsMoveRequest]

/-- C4 witness: the amended characterization applied at the concrete state
`engineP1` (guard passes, request is sent, pending slot overwritten) and at
the same state with the processing flag raised (locally rejected). -/
theorem claim_C4_witness :
    sendsMoveRequest (confirmMove engineP1).2 = true ∧
    (confirmMove engineP1).1.pendingMove =
      some { boardPoints := [-1, 0], dice := (3, 5), moveIndex := 1,
             transactionData := none } ∧
    confirmMove { engineP1 with isProcessingMove := true }
      = ({ engineP1 with isProcessingMove := true }, []) := by
  refine ⟨?_, ?_, ?_⟩
  · exact ((claim_C4_amended engineP1).2 (3, 5) 0 rfl rfl rfl rfl).1
  · have h := ((claim_C4_amended engineP1).2 (3, 5) 0 rfl rfl rfl rfl).2.1
    rw [h]
    decide
  · exact (claim_C4_amended { engineP1 with isProcessingMove := true }).1 (by simp)

theorem snd_submitSignedTx_congr (s₁ s₂ : EngineState) (tx : Transaction)
    (bp : List Int) (d : Int × Int)
    (hmy : s₁.myPubkey = s₂.myPubkey) (hgp : s₁.gamePubkey = s₂.gamePubkey)
    (hct : s₁.currentTurn = s₂.currentTurn) :
    (submitSignedTransactionToBlockchain s₁ tx bp d).2 =
      (submitSignedTransactionToBlockchain s₂ tx bp d).2 := by
  unfold submitSignedTransactionToBlockchain
  rcases hw : tx.serializeTx true with _ | w <;>
    by_cases hl : tx.signatures.length < 2 <;>
      simp [hw, hl, hmy, hgp, hct]

/-- C5 counterexample.  The claim states that replaying a `move_signed`
message for a sequence number the proposer's engine already submitted does
not trigger a second submission.  Concretely: proposer `P1` processes the
fully-signed `move_signed` for sequence number 1 (one ledger submission),
the turn advances via `turn_changed`, and then the identical `move_signed`
message is replayed — and the handler submits to the ledger again:
processing the duplicate is not idempotent. -/
theorem claim_C5_counterexample :
    countSubmits (messageHandler engineP1 msgMoveSigned).2 = 1 ∧
    countSubmits (messageHandler
        (messageHandler (messageHandler engineP1 msgMoveSigned).1 msgTurnChanged).1
        msgMoveSigned).2 = 1 := by
  refine ⟨by decide, by decide⟩

/-- C5 amended.  The engine performs no sequence-number deduplication: the
only `move_signed` messages it drops are echoes of its own (sender identity
equal to its own pubkey), and the effects of processing a `move_signed`
message are a function of the message and the engine's static identity
fields (own pubkey, ledger-observed player1, game id, current turn) alone —
they do not depend on the pending move, the dice, the board, or any record
of previously submitted sequence numbers, so a replayed message is
reprocessed identically and submits again. -/
theorem claim_C5_amended (s₁ s₂ : EngineState) (m : WSMessage)
    (ht : m.type = "move_signed")
    (hmy : s₁.myPubkey = s₂.myPubkey) (hcp : s₁.chainPlayer1 = s₂.chainPlayer1)
    (hgp : s₁.gamePubkey = s₂.gamePubkey) (hct : s₁.currentTurn = s₂.currentTurn) :
    (messageHandler s₁ m).2 = (messageHandler s₂ m).2 := by
  have e1 : (messageHandler s₁ m).2 = (handleMoveSigned s₁ m).2 := by
    simp [messageHandler, ht]
  have e2 : (messageHandler s₂ m).2 = (handleMoveSigned s₂ m).2 := by
    simp [messageHandler, ht]
  rw [e1, e2]
  by_cases hp : m.playerPubkey = some s₂.myPubkey
  · have hp₁ : m.playerPubkey = some s₁.myPubkey := by rw [hmy]; exact hp
    have d1 : handleMoveSigned s₁ m = (s₁, []) := by
      unfold handleMoveSigned; rw [if_pos hp₁]
    have d2 : handleMoveSigned s₂ m = (s₂, []) := by
      unfold handleMoveSigned; rw [if_pos hp]
    rw [d1, d2]
  · have hp₁ : ¬m.playerPubkey = some s₁.myPubkey := by rw [hmy]; exact hp
    unfold handleMoveSigned
    rw [if_neg hp₁, if_neg hp]
    rcases htx : m.transactionData with _ | txd <;>
      rcases hbp : m.boardPoints with _ | bp <;>
        rcases hd : m.dice with _ | d <;>
          simp only <;>
      first
        | (cases s₁.pendingMove <;> cases s₂.pendingMove <;> rfl)
        | (by_cases hl : txd.signatures.length < 2
           · rw [if_pos hl, if_pos hl]
           · rw [if_neg hl, if_neg hl, hcp]
             exact snd_submitSignedTx_congr s₁ s₂ _ bp _ hmy hgp hct)

/-- C5 witness: two engine states that differ in their pending move, board,
dice and selection produce identical effects for the same `move_signed`
message — processing consults no submission history. -/
theorem claim_C5_witness :
    (messageHandler engineP1 msgMoveSigned).2 =
      (messageHandler engineP1Variant msgMoveSigned).2 :=
  claim_C5_amended engineP1 engineP1Variant msgMoveSigned rfl rfl rfl rfl rfl

theorem submitSignedTx_currentTurn (s : EngineState) (tx : Transaction)
    (bp : List Int) (d : Int × Int) :
    (submitSignedTransactionToBlockchain s tx bp d).1.currentTurn = s.currentTurn := by
  unfold submitSignedTransactionToBlockchain
  rcases hw : tx.serializeTx true with _ | w
  · rfl
  · by_cases hl : tx.signatures.length < 2 <;> simp [hw, hl]

theorem submitSignedTx_isMyTurn (s : EngineState) (tx : Transaction)
    (bp : List Int) (d : Int × Int) :
    (submitSignedTransactionToBlockchain s tx bp d).1.isMyTurn = s.isMyTurn := by
  unfold submitSignedTransactionToBlockchain
  rcases hw : tx.serializeTx true with _ | w
  · rfl
  · by_cases hl : tx.signatures.length < 2 <;> simp [hw, hl]

theorem handleMoveSigned_currentTurn (s : EngineState) (m : WSMessage) :
    (handleMoveSigned s m).1.currentTurn = s.currentTurn ∨
    ¬(m.transactionData.isSome ∧ m.boardPoints.isSome ∧ m.dice.isSome) := by
  unfold handleMoveSigned
  by_cases hp : m.playerPubkey = some s.myPubkey
  · rw [if_pos hp]; left; rfl
  · rw [if_neg hp]
    rcases htx : m.transactionData with _ | txd <;>
      rcases hbp : m.boardPoints with _ | bp <;>
        rcases hd : m.dice with _ | d <;>
          simp only <;>
      first
        | (right; simp [htx, hbp, hd]; done)
        | (left
           by_cases hl : txd.signatures.length < 2
           · rw [if_pos hl]
           · rw [if_neg hl]
             exact submitSignedTx_currentTurn s _ bp _)

theorem handleFinishSigned_currentTurn (s : EngineState) (m : WSMessage) :
    (handleFinishSigned s m).1.currentTurn = s.currentTurn := by
  unfold handleFinishSigned
  by_cases hp : m.playerPubkey = some s.myPubkey
  · rw [if_pos hp]
  · rw [if_neg hp]
    rcases htx : m.transactionData with _ | txd <;>
      rcases hw : m.winnerPubkey with _ | w <;> (simp only; try rfl)
    unfold submitFinishTransaction
    rcases hs : txd.serializeTx true with _ | sw <;> simp [hs]

theorem messageHandler_currentTurn (s : EngineState) (m : WSMessage) :
    (messageHandler s m).1.currentTurn = s.currentTurn ∨
    m.type = "turn_changed" ∨
    (m.type = "move_signed" ∧
      ¬(m.transactionData.isSome ∧ m.boardPoints.isSome ∧ m.dice.isSome)) := by
  unfold messageHandler
  split_ifs <;>
    first
      | (left; rfl)
      | (right; left; assumption)
      | (left; split <;> first | rfl | (split <;> rfl))
      | (left; exact handleFinishSigned_currentTurn s m)
      | (rename_i h
         rcases handleMoveSigned_currentTurn s m with hc | hc
         · exact Or.inl hc
         · exact Or.inr (Or.inr ⟨h, hc⟩))

theorem turnCompleted_mem_submitSignedTx {s : EngineState} {tx : Transaction}
    {bp : List Int} {d : Int × Int} {msg : WSMessage}
    (h : EngineEffect.wsCall "sendTurnCompleted" msg ∈
      (submitSignedTransactionToBlockchain s tx bp d).2) :
    msg.newTurn = some (if s.currentTurn = 1 then 2 else 1) := by
  unfold submitSignedTransactionToBlockchain at h
  rcases hw : tx.serializeTx true with _ | w <;> rw [hw] at h
  · simp at h
  · by_cases hl : tx.signatures.length < 2
    · simp [hl] at h
    · simp [hl] at h
      rw [h]

theorem turnCompleted_mem_handleMoveSigned {s : EngineState} {m : WSMessage}
    {msg : WSMessage}
    (h : EngineEffect.wsCall "sendTurnCompleted" msg ∈ (handleMoveSigned s m).2) :
    msg.newTurn = some (if s.currentTurn = 1 then 2 else 1) := by
  unfold handleMoveSigned at h
  by_cases hp : m.playerPubkey = some s.myPubkey
  · rw [if_pos hp] at h; simp at h
  · rw [if_neg hp] at h
    rcases htx : m.transactionData with _ | txd <;> rw [htx] at h <;>
      rcases hbp : m.boardPoints with _ | bp <;> rw [hbp] at h <;>
        rcases hd : m.dice with _ | d <;> rw [hd] at h <;>
          simp only at h <;>
      first
        | (cases hpm : s.pendingMove <;> rw [hpm] at h <;>
            simp [submitMoveToBlockchain] at h)
        | (by_cases hl : txd.signatures.length < 2
           · rw [if_pos hl] at h; simp at h
           · rw [if_neg hl] at h
             exact turnCompleted_mem_submitSignedTx h)

theorem turnCompleted_not_mem_handleFinishSigned {s : EngineState} {m : WSMessage}
    {msg : WSMessage}
    (h : EngineEffect.wsCall "sendTurnCompleted" msg ∈ (handleFinishSigned s m).2) :
    False := by
  unfold handleFinishSigned at h
  by_cases hp : m.playerPubkey = some s.myPubkey
  · rw [if_pos hp] at h; simp at h
  · rw [if_neg hp] at h
    rcases htx : m.transactionData with _ | txd <;> rw [htx] at h <;>
      rcases hw : m.winnerPubkey with _ | w <;> rw [hw] at h <;>
        simp only at h <;> try simp at h
    unfold submitFinishTransaction at h
    rcases hs : txd.serializeTx true with _ | sw <;> rw [hs] at h <;> simp at h

/-- C6 counterexample.  The claim states that every engine sets its local
turn-owner state only upon receiving the `turn_changed` announcement.  In
the concrete state `engineP1` (turn owner 1, pending move outstanding), a
`move_signed` message from the counterpart that carries no transaction data
drives the handler into the legacy fallback, which toggles `currentTurn`
and `isMyTurn` directly — the turn-owner state changes on a message that is
not a `turn_changed` announcement. -/
theorem claim_C6_counterexample :
    msgMoveSignedNoTx.type = "move_signed" ∧
    engineP1.currentTurn = 1 ∧ engineP1.isMyTurn = true ∧
    (messageHandler engineP1 msgMoveSignedNoTx).1.currentTurn = 2 ∧
    (messageHandler engineP1 msgMoveSignedNoTx).1.isMyTurn = false := by
  refine ⟨rfl, rfl, rfl, by decide, by decide⟩

/-- C6 amended.  After a confirmed move the proposer never infers the turn
owner from its own submission success — the only turn announcement it emits
carries the toggled owner, which always differs from the owner who just
acted — and on `turn_changed` every engine adopts the announced owner and
resets its per-turn ephemeral state; however, `currentTurn` can change
outside `turn_changed` on exactly one legacy path: a `move_signed` message
lacking transaction, board or dice data, which toggles the owner locally
via the fallback. -/
theorem claim_C6_amended (s : EngineState) (m : WSMessage) :
    ((messageHandler s m).1.currentTurn ≠ s.currentTurn →
      m.type = "turn_changed" ∨
      (m.type = "move_signed" ∧
        ¬(m.transactionData.isSome ∧ m.boardPoints.isSome ∧ m.dice.isSome))) ∧
    (∀ msg, EngineEffect.wsCall "sendTurnCompleted" msg ∈ (messageHandler s m).2 →
      msg.newTurn = some (if s.currentTurn = 1 then 2 else 1) ∧
      msg.newTurn ≠ some s.currentTurn) ∧
    (∀ nt, m.type = "turn_changed" → m.newTurn = some nt →
      (messageHandler s m).1.currentTurn = nt ∧
      (messageHandler s m).1.dice = none ∧
      (messageHandler s m).1.selectedCell = none ∧
      (messageHandler s m).1.pendingMove = none ∧
      (messageHandler s m).1.isRolling = false ∧
      (messageHandler s m).1.isProcessingMove = false) := by
  refine ⟨?_, ?_, ?_⟩
  · intro hne
    rcases messageHandler_currentTurn s m with hc | hc | hc
    · exact absurd hc hne
    · exact Or.inl hc
    · exact Or.inr hc
  · intro msg hmem
    have hto : msg.newTurn = some (if s.currentTurn = 1 then 2 else 1) := by
      rcases messageHandler_effects s m with he | ⟨_, he⟩ | ⟨_, he⟩
      · rw [he] at hmem; simp at hmem
      · rw [he] at hmem; exact turnCompleted_mem_handleMoveSigned hmem
      · rw [he] at hmem; exact absurd hmem (by
          intro hx; exact turnCompleted_not_mem_handleFinishSigned hx)
    refine ⟨hto, ?_⟩
    rw [hto]
    intro hx
    injection hx with hx
    by_cases h1 : s.currentTurn = 1
    · rw [if_pos h1] at hx; omega
    · rw [if_neg h1] at hx; omega
  · intro nt ht hnt
    simp [messageHandler, ht, handleTurnChanged, hnt]

/-- C6 witness: the proposer's engine, on receiving the `turn_changed`
announcement naming owner 2, adopts it and clears dice, selection and the
pending move. -/
theorem claim_C6_witness :
    (messageHandler engineP1 msgTurnChanged).1.currentTurn = 2 ∧
    (messageHandler engineP1 msgTurnChanged).1.dice = none ∧
    (messageHandler engineP1 msgTurnChanged).1.pendingMove = none := by
  have h := (claim_C6_amended engineP1 msgTurnChanged).2.2 2 rfl rfl
  exact ⟨h.1, h.2.1, h.2.2.2.1⟩

/-- C8 counterexample.  The claim states that for every unparseable incoming
message the Relay sends an error reply to the originating connection.  The
secondary relay (src/server/src/index.ts) does not: its catch block only
logs the parse error to the console — on malformed input it produces no
outgoing message at all, so no error reply reaches the originator. -/
theorem claim_C8_counterexample :
    simpleHandle simpleClientsG 0 RawIncoming.malformed = (simpleClientsG, []) := rfl

/-- C8 amended.  Both relays drop an unparseable message without forwarding
it to any connection; the main relay replies with an error to the
originating connection only, while the secondary relay (src/server/src/index.ts)
drops it silently, sending no reply at all. -/
theorem claim_C8_amended (st : RelayState) (c : Nat)
    (cls : List SimpleClient) (c' : Nat) :
    relayHandle st c RawIncoming.malformed
      = (st, [(c, errorReply "Failed to process message")]) ∧
    simpleHandle cls c' RawIncoming.malformed = (cls, []) :=
  ⟨rfl, rfl⟩

/-- C8 witness: the main relay answers a malformed frame from connection 7
with a single error reply to connection 7, and the secondary relay answers
it with nothing. -/
theorem claim_C8_witness :
    relayHandle relayTwoSessions 7 RawIncoming.malformed
      = (relayTwoSessions, [(7, errorReply "Failed to process message")]) ∧
    simpleHandle simpleClientsG 1 RawIncoming.malformed = (simpleClientsG, []) :=
  claim_C8_amended relayTwoSessions 7 simpleClientsG 1

/-- C9 counterexample.  The claim states that any protocol message arriving
on a connection that has not first subscribed is answered with an error to
the offending connection only and never forwarded.  In the concrete relay
`relayUnsubscribedSender`, connection 0 has no subscription, yet its
`move_request` for the registered game `G` is routed normally: it is
forwarded to connection 1 and connection 0 receives no error reply — the
relay never checks that a sender has subscribed. -/
theorem claim_C9_counterexample :
    subLookup relayUnsubscribedSender.subs 0 = none ∧
    relayHandle relayUnsubscribedSender 0 (.parsed msgMoveRequestG)
      = (relayUnsubscribedSender, [(1, msgMoveRequestG)]) := by
  refine ⟨rfl, by decide⟩

/-- C9 amended.  For `move_request`, `move_signed` and `finish_signed`, a
message naming an unknown session is answered with a `Game not found` error
to the offending connection only and is never forwarded; but the relay
performs no subscribed-check on the sender: when the session is known the
message is fanned out to the session's subscribers regardless of whether
the sending connection ever subscribed, with no error reply. -/
theorem claim_C9_amended (st : RelayState) (c : Nat) (m : WSMessage)
    (htype : m.type = "move_request" ∨ m.type = "move_signed" ∨ m.type = "finish_signed") :
    (gameLookup st m.gamePubkey = none →
      relayHandle st c (.parsed m) = (st, [(c, errorReply "Game not found")])) ∧
    (∀ pl, gameLookup st m.gamePubkey = some pl →
      relayHandle st c (.parsed m) = (st, broadcastOpt st m.gamePubkey m)) := by
  constructor
  · intro hlk
    rcases htype with ht | ht | ht <;> simp [relayHandle, ht, hlk]
  · intro pl hlk
    rcases htype with ht | ht | ht <;> simp [relayHandle, ht, hlk]

/-- C9 witness: the amended behavior at concrete inputs — a `move_signed`
naming the unregistered session `Z` draws a `Game not found` error to its
sender only, and the unsubscribed connection 0's `move_request` for the
registered session `G` is fanned out with no error. -/
theorem claim_C9_witness :
    relayHandle relayTwoSessions 2 (.parsed msgMoveSignedUnknown)
      = (relayTwoSessions, [(2, errorReply "Game not found")]) ∧
    relayHandle relayUnsubscribedSender 0 (.parsed msgMoveRequestG)
      = (relayUnsubscribedSender,
         broadcastOpt relayUnsubscribedSender (some "G") msgMoveRequestG) :=
  ⟨(claim_C9_amended relayTwoSessions 2 msgMoveSignedUnknown
      (Or.inr (Or.inl rfl))).1 rfl,
   (claim_C9_amended relayUnsubscribedSender 0 msgMoveRequestG
      (Or.inl rfl)).2 ("P1", "P2") rfl⟩

/-- C10.  Whenever the engine holds a pending finish request while it is not
its turn, the auto-signing effect fires with no user confirmation involved:
it counter-signs the stored finish transaction with the engine's own
keypair and returns it through a `finish_signed` send, clearing the pending
finish.  (The hypothesis on `serializeTx` states that after this engine's
counter-signature every required signer slot is filled, which holds for
every finish request produced by `confirmWin`.) -/
theorem claim_C10_auto_countersigns_finish (s : EngineState) (pf : PendingFinish)
    (hturn : s.isMyTurn = false) (hpf : s.pendingFinish = some pf)
    (w : Transaction)
    (hw : ((refreshBlockhash pf.transactionData).partialSign s.myPubkey).serializeTx true
            = some w) :
    autoSignPendingFinish s =
      ({ s with pendingFinish := none },
       [.wsCall "sendFinishSigned"
         { type := "finish_signed", gamePubkey := some s.gamePubkey,
           playerPubkey := some s.myPubkey, transactionData := some w,
           winnerPubkey := some pf.winnerPubkey }]) := by
  unfold autoSignPendingFinish
  rw [if_pos (by simp [hturn, hpf])]
  unfold handlePendingFinishSignature
  rw [hpf]
  simp only [hw]

/-- C10 witness: signer `P2`, holding `P1`'s pending finish claim while it is
not `P2`'s turn, automatically counter-signs and sends the fully-signed
finish transaction back, with no user-confirmation step in between. -/
theorem claim_C10_witness :
    autoSignPendingFinish engineP2Signer =
      ({ engineP2Signer with pendingFinish := none },
       [.wsCall "sendFinishSigned"
         { type := "finish_signed", gamePubkey := some "G",
           playerPubkey := some "P2", transactionData := some txBothSigned,
           winnerPubkey := some "P1" }]) :=
  claim_C10_auto_countersigns_finish engineP2Signer
    { winnerPubkey := "P1", transactionData := txP1SignedOnly }
    rfl rfl txBothSigned (by decide)
